import Mathlib

/-
Verification development for the tag co-occurrence engine of the snippet
organizer (class KnowledgeGraphService in the main script, together with the
IndexedDB statistics store it drives).

The three IndexedDB object stores behind the service are embedded as lists of
records keyed by a string (tags keyed by name, tag_stats keyed by pair,
domain_stats keyed by domain).  IndexedDB `get` is lookup by key, `put` is
insert-or-overwrite by key, and `getAll` returns records in ascending key
order.  All `Date.now()` readings inside one call are modelled by a single
timestamp parameter `now`.

Ordering of requests inside one `learn` transaction: the function body issues
every `get` request synchronously (tag gets, then the pair-stat gets, then the
domain get); IndexedDB processes requests in FIFO order, and the `put`
requests issued from the `onsuccess` callbacks are appended after all of the
initially queued `get`s.  Hence every read in one `learn` call observes the
state of the store as it was before the call, and the writes are then applied
in callback order.  The functional `learn` below computes exactly that net
effect on the store.
-/

namespace KG

/-- Record of the `tags` object store: `{ name, created: Date.now(), parent: null, color: null }`. -/
structure TagRec where
  name : String
  created : Nat
  parent : Option String
  color : Option String
  deriving DecidableEq

/-- Record of the `tag_stats` object store: `{ pair, count, lastSeen }`. -/
structure PairRec where
  pair : String
  count : Nat
  lastSeen : Nat
  deriving DecidableEq

/-- Record of the `domain_stats` object store: `{ domain, tagCounts }` where
`tagCounts` is a plain JS object used as a string-keyed counter map
(modelled as an insertion-ordered association list). -/
structure DomainRec where
  domain : String
  tagCounts : List (String × Nat)
  deriving DecidableEq

/-- The statistics store: the three tables the knowledge-graph service touches. -/
structure Store where
  tags : List TagRec
  tagStats : List PairRec
  domainStats : List DomainRec
  deriving DecidableEq

/-- The store before anything has been learned. -/
def emptyStore : Store := ⟨[], [], []⟩

/-- IndexedDB `objectStore.get k`: first record whose key equals `k`. -/
def tblGet {α κ : Type} [BEq κ] (key : α → κ) (tbl : List α) (k : κ) : Option α :=
  tbl.find? (fun r => key r == k)

/-- IndexedDB `objectStore.put r`: overwrite the record with the same key in
place, or append `r` when the key is new. -/
def tblPut {α κ : Type} [BEq κ] (key : α → κ) : List α → α → List α
  | [], r => [r]
  | x :: xs, r => if key x == key r then r :: xs else x :: tblPut key xs r

/-- `getTag` of the store contract. -/
def getTag (s : Store) (n : String) : Option TagRec :=
  tblGet TagRec.name s.tags n

/-- `getPair` of the store contract. -/
def getPair (s : Store) (k : String) : Option PairRec :=
  tblGet PairRec.pair s.tagStats k

/-- `getDomain` of the store contract. -/
def getDomain (s : Store) (d : String) : Option DomainRec :=
  tblGet DomainRec.domain s.domainStats d

/-- Lexicographic comparison of character lists by code point, the order JS
uses on strings (JS compares UTF-16 code units; on the code points a `#[\w-]+`
tag or a hostname can contain the two orders agree). -/
def strLeL : List Char → List Char → Bool
  | [], _ => true
  | _ :: _, [] => false
  | a :: as, b :: bs =>
    if a < b then true
    else if b < a then false
    else strLeL as bs

/-- JS string comparison `a <= b`. -/
def strLe (a b : String) : Bool :=
  strLeL a.data b.data

/-- Insertion step for ascending sort by string key.  IndexedDB `getAll`
returns records in ascending key order. -/
def insertAscBy {α : Type} (key : α → String) (x : α) : List α → List α
  | [] => [x]
  | y :: ys => if strLe (key x) (key y) then x :: y :: ys else y :: insertAscBy key x ys

/-- Insertion sort by ascending string key, used to model `getAll` order. -/
def sortAscBy {α : Type} (key : α → String) : List α → List α
  | [] => []
  | x :: xs => insertAscBy key x (sortAscBy key xs)

/-- All records of `tag_stats`, in the order `getAll` yields them. -/
def getAllPairs (s : Store) : List PairRec :=
  sortAscBy PairRec.pair s.tagStats

/-- `_getPairKey(tagA, tagB)` of KnowledgeGraphService:
`[tagA, tagB].sort().join('_')` — the two names in ascending order joined by
an underscore. -/
def getPairKey (a b : String) : String :=
  if strLe a b then a ++ "_" ++ b else b ++ "_" ++ a

/-- The pair keys produced by the double loop
`for i ...; for j = i+1 ...` in `learn`, in loop order. -/
def pairKeys : List String → List String
  | [] => []
  | t :: rest => rest.map (getPairKey t) ++ pairKeys rest

/-- `_incrementStat(store, key)` as it acts inside the `learn` transaction:
the `get` sees the pre-call table `orig` (all gets are processed before any
put, see the header comment), the `put` writes count+1 with a fresh
`lastSeen` into the evolving table `tbl`. -/
def incrementStat (orig : List PairRec) (now : Nat) (tbl : List PairRec) (key : String) :
    List PairRec :=
  tblPut PairRec.pair tbl
    ⟨key, (match tblGet PairRec.pair orig key with | some r => r.count | none => 0) + 1, now⟩

/-- JS object counter update `m[t] = (m[t] || 0) + 1` on an insertion-ordered
association list (update in place, append when new). -/
def mapSet {κ : Type} [BEq κ] : List (κ × Nat) → κ → Nat → List (κ × Nat)
  | [], k, v => [(k, v)]
  | e :: es, k, v => if e.1 == k then (k, v) :: es else e :: mapSet es k v

/-- Lookup with default, the JS pattern `(m.get(k) || 0)` resp. `(m[k] || 0)`. -/
def mapGetD {κ : Type} [BEq κ] (m : List (κ × Nat)) (k : κ) (d : Nat) : Nat :=
  match m.find? (fun e => e.1 == k) with
  | some e => e.2
  | none => d

/-- `data.tagCounts[t] = (data.tagCounts[t] || 0) + 1`. -/
def objInc (m : List (String × Nat)) (t : String) : List (String × Nat) :=
  mapSet m t (mapGetD m t 0 + 1)

/-- `learn(tags, domain)` of KnowledgeGraphService: net effect of the single
readwrite transaction over the three tables (see the header comment for the
request-ordering argument).  `domain` is truthy when present and non-empty.
Empty input returns immediately.  Note that the source does NOT deduplicate
`tags`: the pair loop runs over all index pairs of the raw array, and the
domain counter loop increments once per occurrence. -/
def learn (tags : List String) (domain : Option String) (now : Nat) (s : Store) : Store :=
  if tags.isEmpty then s
  else
    ⟨tags.foldl (fun tbl t =>
        if (tblGet TagRec.name s.tags t).isSome then tbl
        else tblPut TagRec.name tbl ⟨t, now, none, none⟩) s.tags,
     (pairKeys tags).foldl (incrementStat s.tagStats now) s.tagStats,
     match domain with
     | some d =>
       if d = "" then s.domainStats
       else
         let data := (tblGet DomainRec.domain s.domainStats d).getD ⟨d, []⟩
         tblPut DomainRec.domain s.domainStats ⟨d, tags.foldl objInc data.tagCounts⟩
     | none => s.domainStats⟩

/-- JS `String.prototype.split` with the one-character separator, on the
character list of the string: `''.split(sep) = ['']`, separators at the ends
produce empty pieces. -/
def splitListC (sep : Char) : List Char → List (List Char)
  | [] => [[]]
  | c :: cs =>
    if c = sep then [] :: splitListC sep cs
    else
      match splitListC sep cs with
      | [] => [[c]]
      | p :: ps => (c :: p) :: ps

/-- `stat.pair.split('_')` of `predict`. -/
def jsSplit (s : String) : List String :=
  (splitListC '_' s.data).map (fun l => ⟨l⟩)

/-- Stable insertion step for descending sort by value: an element moves past
everything strictly greater and stops before the first element less than or
equal to it, so equal values keep their original relative order — the
behaviour of the (stable) JS `sort((a, b) => b.val - a.val)`. -/
def insertDescBy {α : Type} (val : α → Nat) (x : α) : List α → List α
  | [] => [x]
  | y :: ys => if val y ≤ val x then x :: y :: ys else y :: insertDescBy val x ys

/-- Stable descending sort by a numeric value. -/
def sortDescBy {α : Type} (val : α → Nat) : List α → List α
  | [] => []
  | x :: xs => insertDescBy val x (sortDescBy val xs)

/-- Section A of `predict` (domain suggestions): when `domain` is truthy and
a profile with `tagCounts` is stored, the top three entries by descending
count each receive `scores.set(tag, (scores.get(tag) || 0) + 5)` into the
fresh score map.  The score map is a JS `Map`, i.e. an insertion-ordered
unique-key association list; its keys are modelled by `Option String` where
`none` stands for the JS value `undefined` (see `assocStep`). -/
def domainScores (s : Store) (domain : Option String) : List (Option String × Nat) :=
  match domain with
  | some d =>
    if d = "" then []
    else
      match getDomain s d with
      | some prof =>
        ((sortDescBy Prod.snd prof.tagCounts).take 3).foldl
          (fun m e => mapSet m (some e.1) (mapGetD m (some e.1) 0 + 5)) []
      | none => []
  | none => []

/-- The body of the `allStats.forEach` loop of section B of `predict`:
`const [tagA, tagB] = stat.pair.split('_')` — `tagA` is the first piece
(`split` never yields an empty array), `tagB` the second piece or `undefined`
(`none`) when the key holds no underscore; `currentTags.includes(undefined)`
is false, and a score can be recorded under the key `undefined`. -/
def assocStep (currentTags : List String) (m : List (Option String × Nat)) (stat : PairRec) :
    List (Option String × Nat) :=
  let parts := jsSplit stat.pair
  let tagA := parts.headD ""
  let tagB : Option String := parts[1]?
  let hasA := currentTags.contains tagA
  let hasB := match tagB with | some b => currentTags.contains b | none => false
  if hasA && !hasB then mapSet m tagB (mapGetD m tagB 0 + stat.count)
  else if !hasA && hasB then mapSet m (some tagA) (mapGetD m (some tagA) 0 + stat.count)
  else m

/-- Section B of `predict` (association suggestions): only when some tags are
already typed, fold `assocStep` over every stored pair record. -/
def assocScores (s : Store) (currentTags : List String)
    (init : List (Option String × Nat)) : List (Option String × Nat) :=
  if currentTags.isEmpty then init
  else (getAllPairs s).foldl (assocStep currentTags) init

/-- Post-processing of `predict`:
`currentTags.forEach(t => scores.delete(t))`. -/
def removeCurrent (currentTags : List String) (m : List (Option String × Nat)) :
    List (Option String × Nat) :=
  currentTags.foldl (fun m t => m.filter (fun e => e.1 != some t)) m

/-- The return expression of `predict`: entries sorted by descending score
(stable), keys only, at most five. -/
def rankTop5 (m : List (Option String × Nat)) : List (Option String) :=
  ((sortDescBy Prod.snd m).map Prod.fst).take 5

/-- `predict(currentTags, domain)` of KnowledgeGraphService, assembled from
the sections above exactly in source order: domain scores feed the map first,
association scores accumulate into it, already-typed tags are deleted, and
the top five keys are returned. -/
def predict (s : Store) (currentTags : List String) (domain : Option String) :
    List (Option String) :=
  rankTop5 (removeCurrent currentTags (assocScores s currentTags (domainScores s domain)))

/-- The tag syntax of the UI boundary: `RE.TAG` is `(?:^|\s)(#[\w-]+)`, so a
tag name is one or more characters from `[A-Za-z0-9_-]` — letters, digits,
underscore and hyphen. -/
def isTagName (s : String) : Bool :=
  !s.isEmpty && s.data.all (fun c => c.isAlphanum || c == '_' || c == '-')

/-- A JS value appearing as a tag entry: `learn` never checks the type of the
entries of `tags`, so besides strings other primitives can arrive; numbers
are the representative non-string case. -/
inductive JSVal where
  | str : String → JSVal
  | num : Int → JSVal
  deriving DecidableEq

/-- JS string coercion `String(v)` for the values above. -/
def JSVal.toStr : JSVal → String
  | .str s => s
  | .num n => toString n

/-- A `tags`-store record whose `name` field holds a raw (possibly
non-string) value; IndexedDB accepts both strings and numbers as keys. -/
structure TagRecV where
  name : JSVal
  created : Nat
  parent : Option String
  color : Option String
  deriving DecidableEq

/-- The statistics store with raw tag keys, for inputs that may hold
non-string tag values. -/
structure StoreV where
  tags : List TagRecV
  tagStats : List PairRec
  domainStats : List DomainRec
  deriving DecidableEq

/-- The empty raw-keyed store. -/
def emptyStoreV : StoreV := ⟨[], [], []⟩

/-- `_getPairKey` on raw values: `[tagA, tagB].sort()` compares the values by
their string coercions (the default JS sort comparator), and `join('_')`
coerces each element to its string form. -/
def getPairKeyV (a b : JSVal) : String :=
  if strLe a.toStr b.toStr then a.toStr ++ "_" ++ b.toStr else b.toStr ++ "_" ++ a.toStr

/-- The pair keys of the double loop of `learn`, on raw values. -/
def pairKeysV : List JSVal → List String
  | [] => []
  | t :: rest => rest.map (getPairKeyV t) ++ pairKeysV rest

/-- `learn(tags, domain)` on a raw `tags` array that may contain non-string
values, with an explicit error channel.  No statement of the body can throw
for string or number entries: the default array sort and `join` are total,
IndexedDB accepts strings and numbers as keys, and the object update
`tagCounts[t]` coerces `t` to its string form — so no `.error` branch exists
and the values are coerced into the store. -/
def learnVal (tags : List JSVal) (domain : Option String) (now : Nat) (s : StoreV) :
    Except String StoreV :=
  if tags.isEmpty then .ok s
  else
    .ok
      ⟨tags.foldl (fun tbl t =>
          if (tblGet TagRecV.name s.tags t).isSome then tbl
          else tblPut TagRecV.name tbl ⟨t, now, none, none⟩) s.tags,
       (pairKeysV tags).foldl (incrementStat s.tagStats now) s.tagStats,
       match domain with
       | some d =>
         if d = "" then s.domainStats
         else
           let data := (tblGet DomainRec.domain s.domainStats d).getD ⟨d, []⟩
           tblPut DomainRec.domain s.domainStats
             ⟨d, tags.foldl (fun m t => objInc m t.toStr) data.tagCounts⟩
       | none => s.domainStats⟩

/-- Canonical view of a store as three multisets of records: two stores with
the same multisets hold exactly the same records, i.e. they are identical as
keyed stores (list order in this embedding only reflects insertion order,
which IndexedDB does not expose — reads are by key or in key order). -/
def storeMultiset (s : Store) : Multiset TagRec × Multiset PairRec × Multiset DomainRec :=
  (↑s.tags, ↑s.tagStats, ↑s.domainStats)

/-! Supporting lemmas. -/

theorem strLeL_refl (l : List Char) : strLeL l l = true := by
  induction l with
  | nil => rfl
  | cons a as ih => simp [strLeL, ih]

theorem strLe_refl (a : String) : strLe a a = true :=
  strLeL_refl a.data

theorem strLeL_antisymm :
    ∀ {as bs : List Char}, strLeL as bs = true → strLeL bs as = true → as = bs
  | [], [], _, _ => rfl
  | [], _ :: _, _, h₂ => by simp [strLeL] at h₂
  | _ :: _, [], h₁, _ => by simp [strLeL] at h₁
  | a :: as, b :: bs, h₁, h₂ => by
    rcases lt_trichotomy a b with hlt | heq | hgt
    · simp [strLeL, hlt, lt_asymm hlt] at h₂
    · subst heq
      simp only [strLeL, lt_irrefl, if_false] at h₁ h₂
      exact congrArg (a :: ·) (strLeL_antisymm h₁ h₂)
    · simp [strLeL, hgt, lt_asymm hgt] at h₁

theorem strLeL_total : ∀ (as bs : List Char), strLeL as bs = true ∨ strLeL bs as = true
  | [], _ => Or.inl rfl
  | _ :: _, [] => Or.inr rfl
  | a :: as, b :: bs => by
    rcases lt_trichotomy a b with hlt | heq | hgt
    · exact Or.inl (by simp [strLeL, hlt])
    · subst heq
      simp only [strLeL, lt_irrefl, if_false]
      exact strLeL_total as bs
    · exact Or.inr (by simp [strLeL, hgt])

theorem strLe_antisymm {a b : String} (h₁ : strLe a b = true) (h₂ : strLe b a = true) :
    a = b := by
  cases a; cases b
  exact congrArg String.mk (strLeL_antisymm h₁ h₂)

theorem strLe_total (a b : String) : strLe a b = true ∨ strLe b a = true :=
  strLeL_total a.data b.data

theorem getPairKey_comm (a b : String) : getPairKey a b = getPairKey b a := by
  unfold getPairKey
  cases hab : strLe a b <;> cases hba : strLe b a
  · rcases strLe_total a b with h | h
    · simp [hab] at h
    · simp [hba] at h
  · simp
  · simp
  · rw [strLe_antisymm hab hba]

theorem splitListC_ne_nil (sep : Char) : ∀ l : List Char, splitListC sep l ≠ []
  | [] => by simp [splitListC]
  | c :: cs => by
    simp only [splitListC]
    split
    · simp
    · split <;> simp

theorem splitListC_no_sep (sep : Char) :
    ∀ {r : List Char}, sep ∉ r → splitListC sep r = [r]
  | [], _ => rfl
  | c :: cs, h => by
    have hc : c ≠ sep := fun e => h (e ▸ List.mem_cons_self c cs)
    have hcs : sep ∉ cs := fun e => h (List.mem_cons_of_mem c e)
    simp [splitListC, hc, splitListC_no_sep sep hcs]

theorem splitListC_append (sep : Char) :
    ∀ {l : List Char} (r : List Char), sep ∉ l →
      splitListC sep (l ++ sep :: r) = l :: splitListC sep r
  | [], r, _ => by simp [splitListC]
  | c :: cs, r, h => by
    have hc : c ≠ sep := fun e => h (e ▸ List.mem_cons_self c cs)
    have hcs : sep ∉ cs := fun e => h (List.mem_cons_of_mem c e)
    simp [splitListC, hc, splitListC_append sep r hcs]

theorem jsSplit_sep_append {x y : String} (hx : '_' ∉ x.data) (hy : '_' ∉ y.data) :
    jsSplit (x ++ "_" ++ y) = [x, y] := by
  have hdata : (x ++ "_" ++ y).data = x.data ++ '_' :: y.data := by
    simp [String.data_append]
  rw [jsSplit, hdata, splitListC_append '_' y.data hx, splitListC_no_sep '_' hy]
  rfl

theorem foldl_preserve {β M : Type} (P : M → Prop) (f : M → β → M)
    (hf : ∀ m b, P m → P (f m b)) : ∀ (l : List β) (m : M), P m → P (l.foldl f m)
  | [], _, h => h
  | b :: l, m, h => foldl_preserve P f hf l (f m b) (hf m b h)

theorem mapSet_keys {κ : Type} [DecidableEq κ] [BEq κ] [LawfulBEq κ]
    (m : List (κ × Nat)) (k : κ) (v : Nat) :
    (mapSet m k v).map Prod.fst =
      if k ∈ m.map Prod.fst then m.map Prod.fst else m.map Prod.fst ++ [k] := by
  induction m with
  | nil => simp [mapSet]
  | cons e es ih =>
    by_cases he : e.1 = k
    · simp [mapSet, he]
    · have hne : (e.1 == k) = false := by simp [he]
      by_cases hk : k ∈ es.map Prod.fst
      · simp [mapSet, hne, ih, hk, Ne.symm he]
      · simp [mapSet, hne, ih, hk, Ne.symm he]

theorem mapSet_keys_nodup {κ : Type} [DecidableEq κ] [BEq κ] [LawfulBEq κ]
    {m : List (κ × Nat)} (k : κ) (v : Nat) (h : (m.map Prod.fst).Nodup) :
    ((mapSet m k v).map Prod.fst).Nodup := by
  rw [mapSet_keys]
  split_ifs with hk
  · exact h
  · simp [List.nodup_append, h, hk]

theorem insertDescBy_perm {α : Type} (val : α → Nat) (x : α) :
    ∀ l : List α, (insertDescBy val x l).Perm (x :: l)
  | [] => .refl _
  | y :: ys => by
    simp only [insertDescBy]
    split
    · exact .refl _
    · exact ((insertDescBy_perm val x ys).cons y).trans (List.Perm.swap x y ys)

theorem sortDescBy_perm {α : Type} (val : α → Nat) :
    ∀ l : List α, (sortDescBy val l).Perm l
  | [] => .refl _
  | x :: xs => (insertDescBy_perm val x (sortDescBy val xs)).trans
      ((sortDescBy_perm val xs).cons x)

theorem rankTop5_length (m : List (Option String × Nat)) : (rankTop5 m).length ≤ 5 := by
  rw [rankTop5]
  exact List.length_take_le 5 _

theorem mem_rankTop5 {m : List (Option String × Nat)} {x : Option String}
    (hx : x ∈ rankTop5 m) : ∃ e ∈ m, e.1 = x := by
  rw [rankTop5] at hx
  obtain ⟨e, he, rfl⟩ := List.mem_map.1 (List.mem_of_mem_take hx)
  exact ⟨e, (sortDescBy_perm Prod.snd m).subset he, rfl⟩

theorem rankTop5_nodup {m : List (Option String × Nat)}
    (h : (m.map Prod.fst).Nodup) : (rankTop5 m).Nodup := by
  rw [rankTop5]
  exact List.Nodup.sublist (List.take_sublist _ _)
    ((((sortDescBy_perm Prod.snd m).map Prod.fst).nodup_iff).2 h)

theorem mem_removeCurrent :
    ∀ (ct : List String) (m : List (Option String × Nat)) (e : Option String × Nat),
      e ∈ removeCurrent ct m → e ∈ m ∧ ∀ t ∈ ct, e.1 ≠ some t
  | [], _, _, h => ⟨h, by simp⟩
  | t :: ct', m, e, h => by
    obtain ⟨hf, hall⟩ :=
      mem_removeCurrent ct' (m.filter fun e => e.1 != some t) e h
    obtain ⟨hm, hne⟩ := List.mem_filter.1 hf
    refine ⟨hm, fun u hu => ?_⟩
    rcases List.mem_cons.1 hu with rfl | hu'
    · simpa using hne
    · exact hall u hu'

theorem removeCurrent_keys_nodup (ct : List String) (m : List (Option String × Nat))
    (h : (m.map Prod.fst).Nodup) : ((removeCurrent ct m).map Prod.fst).Nodup :=
  foldl_preserve (fun m => (m.map Prod.fst).Nodup) _
    (fun m _ hm =>
      List.Nodup.sublist ((List.filter_sublist m).map Prod.fst) hm) ct m h

theorem domainScores_keys_nodup (s : Store) (d : Option String) :
    ((domainScores s d).map Prod.fst).Nodup := by
  unfold domainScores
  rcases d with _ | d
  · exact List.nodup_nil
  · dsimp only
    split
    · exact List.nodup_nil
    · cases hprof : getDomain s d with
      | none => exact List.nodup_nil
      | some prof =>
        refine foldl_preserve (fun m : List (Option String × Nat) => (m.map Prod.fst).Nodup)
          _ (fun m e hm => mapSet_keys_nodup _ _ hm) _ [] List.nodup_nil

theorem assocStep_keys_nodup (ct : List String) (m : List (Option String × Nat))
    (stat : PairRec) (h : (m.map Prod.fst).Nodup) :
    ((assocStep ct m stat).map Prod.fst).Nodup := by
  simp only [assocStep]
  split
  · exact mapSet_keys_nodup _ _ h
  · split
    · exact mapSet_keys_nodup _ _ h
    · exact h

theorem assocScores_keys_nodup (s : Store) (ct : List String)
    (init : List (Option String × Nat)) (h : (init.map Prod.fst).Nodup) :
    ((assocScores s ct init).map Prod.fst).Nodup := by
  unfold assocScores
  split
  · exact h
  · exact foldl_preserve (fun m => (m.map Prod.fst).Nodup) _
      (fun m stat hm => assocStep_keys_nodup ct m stat hm) _ init h

/-- The net effect of `learn` on two distinct fresh tags over the empty
store: both tags registered in input order, one pair record with the
canonical key and count 1, no domain writes. -/
theorem learn_two_empty (A B : String) (t : Nat) (h : A ≠ B) :
    learn [A, B] none t emptyStore =
      ⟨[⟨A, t, none, none⟩, ⟨B, t, none, none⟩], [⟨getPairKey A B, 1, t⟩], []⟩ := by
  have hAB : (A == B) = false := by simp [h]
  simp [learn, emptyStore, pairKeys, incrementStat, tblGet, tblPut, hAB]

/-! Claim theorems. -/

/-- Claim C1, counterexample: `learn(['A','A'])` does create a pair record
pairing `A` with itself — the input is not deduplicated before pairing, so
the claimed behaviour is false on the code. -/
theorem claim1_counterexample :
    getPair (learn ["A", "A"] none 0 emptyStore) "A_A" = some ⟨"A_A", 1, 0⟩ := by
  decide

/-- Claim C1 as amended: `learn` does not deduplicate its input; a duplicated
tag `t` produces a self-pair record whose key joins `t` with itself, stored
with count 1 (within one call every pair read sees the pre-call store, so the
repeated key is written twice with the same incremented value). -/
theorem claim1_self_pair (t : String) (now : Nat) :
    getPairKey t t = t ++ "_" ++ t ∧
    getPair (learn [t, t] none now emptyStore) (getPairKey t t) =
      some ⟨getPairKey t t, 1, now⟩ := by
  constructor
  · simp [getPairKey, strLe_refl]
  · simp [learn, pairKeys, emptyStore, incrementStat, tblGet, tblPut, getPair]

/-- Claim C2, counterexample: `a_b` and `c` are both legal tag names under
`RE.TAG` (underscore matches `\w`), but splitting their pair key on the
underscore yields `['a','b','c']`, and the destructured first two pieces are
`a` and `b` — not the two original names in either order. -/
theorem claim2_counterexample :
    isTagName "a_b" = true ∧ isTagName "c" = true ∧
    getPairKey "a_b" "c" = "a_b_c" ∧
    jsSplit (getPairKey "a_b" "c") = ["a", "b", "c"] ∧
    jsSplit (getPairKey "a_b" "c") ≠ ["a_b", "c"] ∧
    jsSplit (getPairKey "a_b" "c") ≠ ["c", "a_b"] := by
  decide

/-- Claim C2 as amended: the underscore separator IS itself legal in a tag
name, so the round-trip only holds for tag names free of underscores: for two
such names the split of the pair key recovers exactly the two originals (in
canonical order). -/
theorem claim2_roundtrip_no_underscore (a b : String)
    (_ha : isTagName a = true) (_hb : isTagName b = true)
    (hna : '_' ∉ a.data) (hnb : '_' ∉ b.data) :
    jsSplit (getPairKey a b) = [a, b] ∨ jsSplit (getPairKey a b) = [b, a] := by
  unfold getPairKey
  split
  · exact Or.inl (jsSplit_sep_append hna hnb)
  · exact Or.inr (jsSplit_sep_append hnb hna)

/-- Claim C2 witness: the amended round-trip at the concrete underscore-free
names `ab` and `c`. -/
theorem claim2_roundtrip_witness :
    (isTagName "ab" = true ∧ isTagName "c" = true ∧
      '_' ∉ "ab".data ∧ '_' ∉ "c".data) ∧
    (jsSplit (getPairKey "ab" "c") = ["ab", "c"] ∨
      jsSplit (getPairKey "ab" "c") = ["c", "ab"]) :=
  ⟨⟨by decide, by decide, by decide, by decide⟩,
    claim2_roundtrip_no_underscore "ab" "c" (by decide) (by decide) (by decide) (by decide)⟩

/-- Claim C4: from the empty store, learning two distinct tags once gives the
canonical pair count 1, learning them again gives count 2, and the store
contents after one call are identical (as keyed record sets) whether the tags
arrive as `A,B` or as `B,A`. -/
theorem claim4_pair_count_order_independent (A B : String) (t₁ t₂ u : Nat) (h : A ≠ B) :
    (getPair (learn [A, B] none t₁ emptyStore) (getPairKey A B)).map PairRec.count =
      some 1 ∧
    (getPair (learn [A, B] none t₂ (learn [A, B] none t₁ emptyStore))
        (getPairKey A B)).map PairRec.count = some 2 ∧
    storeMultiset (learn [A, B] none u emptyStore) =
      storeMultiset (learn [B, A] none u emptyStore) := by
  refine ⟨?_, ?_, ?_⟩
  · rw [learn_two_empty A B t₁ h]
    simp [getPair, tblGet]
  · rw [learn_two_empty A B t₁ h]
    simp [learn, pairKeys, incrementStat, tblGet, tblPut, getPair]
  · rw [learn_two_empty A B u h, learn_two_empty B A u (Ne.symm h),
      getPairKey_comm B A]
    simp only [storeMultiset, Prod.mk.injEq, and_true, Multiset.coe_eq_coe]
    exact List.Perm.swap (⟨B, u, none, none⟩ : TagRec) (⟨A, u, none, none⟩ : TagRec) []

/-- Claim C4 witness: the theorem at the concrete distinct tags `A` and `B`. -/
theorem claim4_witness :
    (("A" : String) ≠ "B") ∧
    ((getPair (learn ["A", "B"] none 0 emptyStore) (getPairKey "A" "B")).map
        PairRec.count = some 1 ∧
      (getPair (learn ["A", "B"] none 1 (learn ["A", "B"] none 0 emptyStore))
          (getPairKey "A" "B")).map PairRec.count = some 2 ∧
      storeMultiset (learn ["A", "B"] none 2 emptyStore) =
        storeMultiset (learn ["B", "A"] none 2 emptyStore)) :=
  ⟨by decide, claim4_pair_count_order_independent "A" "B" 0 1 2 (by decide)⟩

/-- Claim C5: after pasta+tomaat three times and pasta+basilicum once, the
prediction for `['pasta']` is exactly tomaat then basilicum, and pasta itself
never appears — for any call timestamps. -/
theorem claim5_association_ranking (t₁ t₂ t₃ t₄ : Nat) :
    predict
        (learn ["pasta", "basilicum"] none t₄
          (learn ["pasta", "tomaat"] none t₃
            (learn ["pasta", "tomaat"] none t₂
              (learn ["pasta", "tomaat"] none t₁ emptyStore))))
        ["pasta"] none = [some "tomaat", some "basilicum"] ∧
    some "pasta" ∉
      predict
        (learn ["pasta", "basilicum"] none t₄
          (learn ["pasta", "tomaat"] none t₃
            (learn ["pasta", "tomaat"] none t₂
              (learn ["pasta", "tomaat"] none t₁ emptyStore))))
        ["pasta"] none := by
  have h :
      predict
        (learn ["pasta", "basilicum"] none t₄
          (learn ["pasta", "tomaat"] none t₃
            (learn ["pasta", "tomaat"] none t₂
              (learn ["pasta", "tomaat"] none t₁ emptyStore))))
        ["pasta"] none = [some "tomaat", some "basilicum"] := rfl
  exact ⟨h, by rw [h]; decide⟩

/-- Claim C6: a tag already among the current tags is never suggested, for
every store state, current-tag sequence and domain; in particular after
learning soep+balletjes the prediction for both typed tags is empty. -/
theorem claim6_no_current_tag_suggested :
    (∀ (s : Store) (currentTags : List String) (domain : Option String) (t : String),
        t ∈ currentTags → some t ∉ predict s currentTags domain) ∧
    (∀ now : Nat,
        predict (learn ["soep", "balletjes"] none now emptyStore)
          ["soep", "balletjes"] none = []) := by
  constructor
  · intro s ct d t ht hmem
    unfold predict at hmem
    obtain ⟨e, he, hkey⟩ := mem_rankTop5 hmem
    obtain ⟨-, hall⟩ := mem_removeCurrent ct _ e he
    exact hall t ht hkey
  · intro now
    rfl

/-- Claim C6 witness: the exclusion instantiated at a concrete store and
current-tag list. -/
theorem claim6_witness :
    ("soep" ∈ (["soep", "balletjes"] : List String)) ∧
    some "soep" ∉
      predict (learn ["soep", "balletjes"] none 0 emptyStore)
        ["soep", "balletjes"] none :=
  ⟨by decide,
    claim6_no_current_tag_suggested.1 (learn ["soep", "balletjes"] none 0 emptyStore)
      ["soep", "balletjes"] none "soep" (by decide)⟩

/-- Claim C7: `predict` never returns more than five entries, for every store
state, current-tag sequence and domain. -/
theorem claim7_result_cap (s : Store) (currentTags : List String)
    (domain : Option String) : (predict s currentTags domain).length ≤ 5 := by
  unfold predict
  exact rankTop5_length _

/-- Claim C8: `learn` with an empty tag set, with or without a domain, leaves
every record untouched; on the raw-value model the call also completes
without an error. -/
theorem claim8_empty_learn_noop :
    (∀ (domain : Option String) (now : Nat) (s : Store), learn [] domain now s = s) ∧
    (∀ (domain : Option String) (now : Nat) (s : StoreV),
        learnVal [] domain now s = Except.ok s) :=
  ⟨fun _ _ _ => rfl, fun _ _ _ => rfl⟩

/-- Claim C9, counterexample: a call with the non-string tag value `42` is
not rejected — it succeeds and coerces the number into the store: the raw
value becomes a tag record key and its string form enters the pair key
`42_A`. -/
theorem claim9_counterexample :
    learnVal [JSVal.num 42, JSVal.str "A"] none 0 emptyStoreV =
      Except.ok
        ⟨[⟨JSVal.num 42, 0, none, none⟩, ⟨JSVal.str "A", 0, none, none⟩],
          [⟨"42_A", 1, 0⟩], []⟩ := by
  rfl

/-- Claim C9 as amended: `learn` performs no validation of tag values; a call
whose tag set holds a number completes without error, registers the raw value
as a tag record, and stores the pair counter under the key built from the
string coercions of the two values. -/
theorem claim9_no_validation (k : Int) (now : Nat) :
    learnVal [JSVal.num k, JSVal.str "A"] none now emptyStoreV =
      Except.ok
        ⟨[⟨JSVal.num k, now, none, none⟩, ⟨JSVal.str "A", now, none, none⟩],
          [⟨getPairKeyV (JSVal.num k) (JSVal.str "A"), 1, now⟩], []⟩ := by
  have hne : (JSVal.num k == JSVal.str "A") = false := by simp
  simp [learnVal, pairKeysV, emptyStoreV, incrementStat, tblGet, tblPut, hne]

/-- Claim C10: the suggestion list holds no duplicate entries, for every
store state, current-tag sequence and domain: the score map has unique keys
and the result is its key column. -/
theorem claim10_no_duplicate_suggestions (s : Store) (currentTags : List String)
    (domain : Option String) : (predict s currentTags domain).Nodup := by
  unfold predict
  exact rankTop5_nodup (removeCurrent_keys_nodup currentTags _
    (assocScores_keys_nodup s currentTags _ (domainScores_keys_nodup s domain)))

end KG

